import Mathlib

/-!
Shallow embedding of the voice-notes application in `src/src/App.tsx`:
the recorder state machine, the recording timer, the transcription
pipeline (`processRecording`), and the note CRUD handlers (`loadNotes`,
`saveNote`, `deleteNote`, `createNewNote`).  External collaborators
(the hosted store client and the transcription endpoint) are passed in
as oracles; where their behaviour matters it is modelled from the
specification of the external interfaces.
-/

namespace VoiceNotes

/-- The `Note` record of `App.tsx` (`interface Note`). -/
structure Note where
  id : String
  title : String
  content : String
  created_at : String
  updated_at : String
  user_id : String
  duration : Option Nat := none
  audio_url : Option String := none
deriving Repr, DecidableEq

/-- The states of the platform `MediaRecorder` object that the handler
guards inspect (`mediaRecorder.state`). -/
inductive RecState
  | inactive
  | recording
  | paused
deriving Repr, DecidableEq

/-- The three recorder-control handlers of `App.tsx` that act on an
existing recorder: `pauseRecording`, `resumeRecording`, `stopRecording`. -/
inductive RecOp
  | pause
  | resume
  | stop
deriving Repr, DecidableEq

/-- Effect of one recorder-control handler on the recorder's state,
exactly as guarded in `App.tsx` lines 117-139: `pause` fires only when
the state is `recording`, `resume` only when `paused`, `stop` only when
`recording` or `paused`; otherwise the handler does nothing. -/
def mrStep (s : RecState) : RecOp → RecState
  | RecOp.pause => if s = RecState.recording then RecState.paused else s
  | RecOp.resume => if s = RecState.paused then RecState.recording else s
  | RecOp.stop =>
      if s = RecState.recording ∨ s = RecState.paused then RecState.inactive else s

/-- The React state of `App` that the recorder and timer touch:
the recorder's state, the `isRecording` / `isPaused` flags and the
`recordingTime` counter. -/
structure TimerState where
  recState : RecState
  isRecording : Bool
  isPaused : Bool
  recordingTime : Nat
deriving Repr, DecidableEq

/-- Events acting on `TimerState`: the four control handlers plus one
firing of the one-second interval installed by the timer effect
(`App.tsx` lines 66-74). -/
inductive Event
  | start
  | pause
  | resume
  | stop
  | tick
deriving Repr, DecidableEq

/-- One event's effect on the app state, from `App.tsx`:
`startRecording` installs a fresh recorder and resets the counter to 0
(lines 92-96); `pauseRecording` / `resumeRecording` / `stopRecording`
guard on the recorder's state and set the flags (lines 117-139); the
interval callback increments `recordingTime` and only exists while
`isRecording && !isPaused` (lines 66-74), so a `tick` outside that
condition does nothing. -/
def step (s : TimerState) : Event → TimerState
  | Event.start =>
      { recState := RecState.recording, isRecording := true, isPaused := false,
        recordingTime := 0 }
  | Event.pause =>
      if s.recState = RecState.recording then
        { s with recState := RecState.paused, isPaused := true }
      else s
  | Event.resume =>
      if s.recState = RecState.paused then
        { s with recState := RecState.recording, isPaused := false }
      else s
  | Event.stop =>
      if s.recState = RecState.recording ∨ s.recState = RecState.paused then
        { s with recState := RecState.inactive, isRecording := false, isPaused := false }
      else s
  | Event.tick =>
      if s.isRecording && !s.isPaused then
        { s with recordingTime := s.recordingTime + 1 }
      else s

/-- Which events the UI can emit in a given state: the start button is
rendered only while not recording, pause only while recording and not
paused, resume only while paused, stop only while recording, and the
one-second interval only exists while recording and not paused. -/
def allowed (s : TimerState) : Event → Bool
  | Event.start => !s.isRecording
  | Event.pause => s.isRecording && !s.isPaused
  | Event.resume => s.isRecording && s.isPaused
  | Event.stop => s.isRecording
  | Event.tick => s.isRecording && !s.isPaused

/-- A trace of events each of which the UI can emit at the state where
it occurs. -/
def ValidTrace : TimerState → List Event → Prop
  | _, [] => True
  | s, e :: es => allowed s e = true ∧ ValidTrace (step s e) es

instance : ∀ s es, Decidable (ValidTrace s es)
  | _, [] => isTrue trivial
  | s, e :: es =>
      have : Decidable (ValidTrace (step s e) es) := instDecidableValidTrace (step s e) es
      instDecidableAnd

/-- Run a list of events from a state. -/
def run (s : TimerState) (es : List Event) : TimerState :=
  es.foldl step s

/-- The app's initial state: no recorder, flags false, counter 0. -/
def initialTimer : TimerState :=
  { recState := RecState.inactive, isRecording := false, isPaused := false,
    recordingTime := 0 }

lemma run_nil (s : TimerState) : run s [] = s := rfl

lemma run_cons (s : TimerState) (e : Event) (es : List Event) :
    run s (e :: es) = run (step s e) es := rfl

lemma recordingTime_step_of_ne_tick_start (s : TimerState) (e : Event)
    (h1 : e ≠ Event.tick) (h2 : e ≠ Event.start) :
    (step s e).recordingTime = s.recordingTime := by
  cases e with
  | start => exact absurd rfl h2
  | tick => exact absurd rfl h1
  | pause => simp only [step]; split <;> rfl
  | resume => simp only [step]; split <;> rfl
  | stop => simp only [step]; split <;> rfl

/-- On a valid trace containing no `start`, the counter grows by exactly
the number of ticks in the trace. -/
lemma recordingTime_run_no_start :
    ∀ (es : List Event) (s : TimerState), ValidTrace s es →
      Event.start ∉ es →
      (run s es).recordingTime = s.recordingTime + es.count Event.tick
  | [], s, _, _ => by simp [run_nil]
  | e :: es, s, hv, hns => by
      obtain ⟨ha, hv'⟩ := hv
      have hne : Event.start ∉ es := fun h => hns (List.mem_cons_of_mem _ h)
      have hes : e ≠ Event.start := fun h => hns (h ▸ List.mem_cons_self _ _)
      rw [run_cons]
      cases he : decide (e = Event.tick) with
      | true =>
          have he' : e = Event.tick := of_decide_eq_true he
          subst he'
          have hguard : (s.isRecording && !s.isPaused) = true := ha
          have hstep : (step s Event.tick).recordingTime = s.recordingTime + 1 := by
            simp only [step, hguard, if_pos]
          rw [recordingTime_run_no_start es _ hv' hne, hstep]
          simp [List.count_cons]
          omega
      | false =>
          have he' : e ≠ Event.tick := of_decide_eq_false he
          have hstep := recordingTime_step_of_ne_tick_start s e he' hes
          rw [recordingTime_run_no_start es _ hv' hne, hstep]
          have : (e :: es).count Event.tick = es.count Event.tick := by
            simp [List.count_cons, he']
          omega

/-- On a valid trace every tick happens strictly in the recording,
non-paused state. -/
lemma tick_allowed_means_recording (s : TimerState)
    (h : allowed s Event.tick = true) :
    s.isRecording = true ∧ s.isPaused = false := by
  simp only [allowed, Bool.and_eq_true, Bool.not_eq_true'] at h
  exact h

lemma foldl_mrStep_inactive :
    ∀ ops : List RecOp, List.foldl mrStep RecState.inactive ops = RecState.inactive
  | [] => rfl
  | op :: ops => by
      have h : mrStep RecState.inactive op = RecState.inactive := by
        cases op <;> rfl
      simp only [List.foldl_cons, h]
      exact foldl_mrStep_inactive ops

/-- C2: the recorder operations respect the state machine: `pause` moves
Recording to Paused and does nothing from any other state; `resume`
moves Paused to Recording and does nothing from any other state; `stop`
is effective exactly from Recording or Paused, and once the recorder is
terminated (inactive) no sequence of further operations changes its
state. -/
theorem recorder_state_machine :
    (mrStep RecState.recording RecOp.pause = RecState.paused) ∧
    (mrStep RecState.paused RecOp.pause = RecState.paused) ∧
    (mrStep RecState.inactive RecOp.pause = RecState.inactive) ∧
    (mrStep RecState.paused RecOp.resume = RecState.recording) ∧
    (mrStep RecState.recording RecOp.resume = RecState.recording) ∧
    (mrStep RecState.inactive RecOp.resume = RecState.inactive) ∧
    (mrStep RecState.recording RecOp.stop = RecState.inactive) ∧
    (mrStep RecState.paused RecOp.stop = RecState.inactive) ∧
    (mrStep RecState.inactive RecOp.stop = RecState.inactive) ∧
    (∀ ops : List RecOp,
      List.foldl mrStep RecState.inactive ops = RecState.inactive) := by
  refine ⟨rfl, rfl, rfl, rfl, rfl, rfl, rfl, rfl, rfl, ?_⟩
  exact foldl_mrStep_inactive

/-- C3: a tick increments the elapsed time by exactly one while
recording and not paused; ticks leave the elapsed time unchanged while
paused; `start` resets it to 0; and for every valid single-session trace
(a `start` followed by events containing no further `start`) the final
elapsed time equals the number of ticks, each of which occurs strictly
in the Recording state. -/
theorem elapsed_time_counts_recording_seconds :
    (∀ s : TimerState, s.isRecording = true → s.isPaused = false →
      (step s Event.tick).recordingTime = s.recordingTime + 1) ∧
    (∀ s : TimerState, s.isPaused = true →
      (step s Event.tick).recordingTime = s.recordingTime) ∧
    (∀ s : TimerState, (step s Event.start).recordingTime = 0) ∧
    (∀ (s : TimerState) (es : List Event),
      ValidTrace s (Event.start :: es) → Event.start ∉ es →
      (run s (Event.start :: es)).recordingTime = es.count Event.tick) := by
  refine ⟨?_, ?_, ?_, ?_⟩
  · intro s hr hp
    have hguard : (s.isRecording && !s.isPaused) = true := by
      rw [hr, hp]; rfl
    simp only [step, hguard, if_pos]
  · intro s hp
    have hguard : (s.isRecording && !s.isPaused) = false := by
      rw [hp]; simp
    simp only [step, hguard]
    rfl
  · intro s; rfl
  · intro s es hv hns
    obtain ⟨_, hv'⟩ := hv
    rw [run_cons]
    have h0 : (step s Event.start).recordingTime = 0 := rfl
    rw [recordingTime_run_no_start es _ hv' hns, h0, Nat.zero_add]

/-- Witness for C3 at a concrete trace: start, two ticks, pause, resume,
one more tick, stop gives elapsed time 3. -/
theorem elapsed_time_counts_recording_seconds_witness :
    (run initialTimer
      [Event.start, Event.tick, Event.tick, Event.pause, Event.resume,
        Event.tick, Event.stop]).recordingTime = 3 := by
  have h := elapsed_time_counts_recording_seconds.2.2.2 initialTimer
    [Event.tick, Event.tick, Event.pause, Event.resume, Event.tick, Event.stop]
    (by decide) (by decide)
  simpa using h

/-- A captured audio fragment (one `Blob` handed to `ondataavailable`),
treated as opaque binary data. -/
abbrev Chunk := List Nat

/-- The fields `processRecording` passes to `blink.db.notes.create`
(`App.tsx` lines 170-175). -/
structure NoteFields where
  title : String
  content : String
  user_id : String
  duration : Nat
deriving Repr, DecidableEq

/-- Server-assigned parts of a persisted note: identifier and
timestamps. -/
structure ServerMeta where
  id : String
  created_at : String
  updated_at : String
deriving Repr, DecidableEq

/-- Modelled from the spec: the Note Store Adapter's `create` operation
(`blink.db.notes.create`, whose client code is not under `src/`) —
"`create(fields)` → persisted Note with server-assigned identifier and
timestamps", the submitted fields preserved. -/
def storeCreate (meta : ServerMeta) (f : NoteFields) : Note :=
  { id := meta.id, title := f.title, content := f.content,
    created_at := meta.created_at, updated_at := meta.updated_at,
    user_id := f.user_id, duration := some f.duration, audio_url := none }

/-- The external operations `processRecording` awaits, as oracles: blob
assembly plus base64 encoding via `FileReader`, the transcription call
`blink.ai.transcribeAudio`, and the store create (returning the
server-assigned parts).  Each may fail, which in the source throws into
the surrounding `try`. -/
structure PipelineExt where
  encode : List Chunk → Except Unit String
  transcribe : String → Except Unit String
  create : NoteFields → Except Unit ServerMeta

/-- The React state `processRecording` reads and writes. -/
structure PipeState where
  notes : List Note
  currentNote : Option Note
  newNoteTitle : String
  isTranscribing : Bool
  audioChunks : List Chunk
  recordingTime : Nat
deriving Repr, DecidableEq

/-- Observable outcome of one `processRecording` run: the final state,
whether the transcription service and the store create were called, and
whether the failure toast was shown. -/
structure PipeResult where
  state : PipeState
  transcribeCalled : Bool
  createCalled : Bool
  errorToast : Bool
deriving Repr, DecidableEq

/-- The title chosen for the new note:
`newNoteTitle.trim() || "Voice Note " + current date`
(`App.tsx` line 169). -/
def noteTitleOf (s : PipeState) (today : String) : String :=
  if s.newNoteTitle.trim = "" then "Voice Note " ++ today else s.newNoteTitle.trim

/-- `processRecording` (`App.tsx` lines 141-189).  Empty fragment buffer:
immediate return.  Otherwise the `try` block encodes, transcribes,
creates the note, prepends it to `notes`, selects it, and clears the
title input; any failure falls to the `catch` (error toast); the
`finally` always clears `isTranscribing` and the fragment buffer. -/
def processRecording (ext : PipelineExt) (today userId : String)
    (s : PipeState) : PipeResult :=
  if s.audioChunks = [] then
    { state := s, transcribeCalled := false, createCalled := false,
      errorToast := false }
  else
    match ext.encode s.audioChunks with
    | Except.error _ =>
        { state := { s with isTranscribing := false, audioChunks := [] },
          transcribeCalled := false, createCalled := false, errorToast := true }
    | Except.ok b64 =>
      match ext.transcribe b64 with
      | Except.error _ =>
          { state := { s with isTranscribing := false, audioChunks := [] },
            transcribeCalled := true, createCalled := false, errorToast := true }
      | Except.ok text =>
        match ext.create ⟨noteTitleOf s today, text, userId, s.recordingTime⟩ with
        | Except.error _ =>
            { state := { s with isTranscribing := false, audioChunks := [] },
              transcribeCalled := true, createCalled := true, errorToast := true }
        | Except.ok meta =>
          let newNote :=
            storeCreate meta ⟨noteTitleOf s today, text, userId, s.recordingTime⟩
          let s' := { s with notes := newNote :: s.notes,
                             currentNote := some newNote,
                             newNoteTitle := "", isTranscribing := false,
                             audioChunks := ([] : List Chunk) }
          { state := s', transcribeCalled := true, createCalled := true,
            errorToast := false }

/-- The run of `processRecording` fails at some step: the encoding, the
transcription call, or the store create returns an error. -/
def pipelineFails (ext : PipelineExt) (today userId : String)
    (s : PipeState) : Bool :=
  match ext.encode s.audioChunks with
  | Except.error _ => true
  | Except.ok b64 =>
    match ext.transcribe b64 with
    | Except.error _ => true
    | Except.ok text =>
      match ext.create ⟨noteTitleOf s today, text, userId, s.recordingTime⟩ with
      | Except.error _ => true
      | Except.ok _ => false

/-- C1: a pipeline run with a non-empty fragment buffer in which
encoding, transcription and the store create all succeed produces
exactly one new Note — content the returned transcript, duration the
elapsed recording seconds, title the trimmed user title when non-blank
and otherwise `"Voice Note "` followed by the current date — prepended
to the notes collection and selected as the active note. -/
theorem successful_pipeline_creates_one_note
    (ext : PipelineExt) (today userId : String) (s : PipeState)
    (b64 text : String) (meta : ServerMeta)
    (hne : s.audioChunks ≠ [])
    (he : ext.encode s.audioChunks = Except.ok b64)
    (ht : ext.transcribe b64 = Except.ok text)
    (hc : ext.create ⟨noteTitleOf s today, text, userId, s.recordingTime⟩ =
      Except.ok meta) :
    ∃ n : Note,
      (processRecording ext today userId s).state.notes = n :: s.notes ∧
      (processRecording ext today userId s).state.currentNote = some n ∧
      n.content = text ∧
      n.duration = some s.recordingTime ∧
      (s.newNoteTitle.trim ≠ "" → n.title = s.newNoteTitle.trim) ∧
      (s.newNoteTitle.trim = "" → n.title = "Voice Note " ++ today) := by
  refine ⟨storeCreate meta ⟨noteTitleOf s today, text, userId, s.recordingTime⟩,
    ?_, ?_, rfl, rfl, ?_, ?_⟩
  · simp only [processRecording, if_neg hne, he, ht, hc]
  · simp only [processRecording, if_neg hne, he, ht, hc]
  · intro h
    simp only [storeCreate, noteTitleOf, if_neg h]
  · intro h
    simp only [storeCreate, noteTitleOf, if_pos h]

/-- Witness for C1 at a concrete run: one fragment, all oracles succeed,
blank title, so the note gets the synthesized default title. -/
theorem successful_pipeline_creates_one_note_witness :
    ∃ n : Note,
      (processRecording
        ⟨fun _ => Except.ok "b64", fun _ => Except.ok "hello world",
          fun _ => Except.ok ⟨"id1", "t0", "t0"⟩⟩
        "1/2/2026" "u1"
        ⟨[], none, " ", false, [[0]], 5⟩).state.notes = n :: [] ∧
      (processRecording
        ⟨fun _ => Except.ok "b64", fun _ => Except.ok "hello world",
          fun _ => Except.ok ⟨"id1", "t0", "t0"⟩⟩
        "1/2/2026" "u1"
        ⟨[], none, " ", false, [[0]], 5⟩).state.currentNote = some n ∧
      n.content = "hello world" ∧
      n.duration = some 5 ∧
      (" ".trim ≠ "" → n.title = " ".trim) ∧
      (" ".trim = "" → n.title = "Voice Note " ++ "1/2/2026") :=
  successful_pipeline_creates_one_note
    ⟨fun _ => Except.ok "b64", fun _ => Except.ok "hello world",
      fun _ => Except.ok ⟨"id1", "t0", "t0"⟩⟩
    "1/2/2026" "u1" ⟨[], none, " ", false, [[0]], 5⟩
    "b64" "hello world" ⟨"id1", "t0", "t0"⟩
    (by decide) rfl rfl rfl

/-- C4: invoking the pipeline with an empty fragment buffer is a no-op:
no transcription request, no store create, no error, and the state
(notes collection and active-note selection included) is exactly
unchanged. -/
theorem empty_pipeline_is_noop
    (ext : PipelineExt) (today userId : String) (s : PipeState)
    (h : s.audioChunks = []) :
    processRecording ext today userId s =
      { state := s, transcribeCalled := false, createCalled := false,
        errorToast := false } := by
  simp only [processRecording, if_pos h]

/-- Witness for C4: a concrete state with an empty buffer is returned
untouched. -/
theorem empty_pipeline_is_noop_witness :
    processRecording
      ⟨fun _ => Except.ok "b64", fun _ => Except.ok "text",
        fun _ => Except.ok ⟨"id1", "t0", "t0"⟩⟩
      "1/2/2026" "u1" ⟨[], none, "title", false, [], 7⟩ =
      { state := ⟨[], none, "title", false, [], 7⟩, transcribeCalled := false,
        createCalled := false, errorToast := false } :=
  empty_pipeline_is_noop
    ⟨fun _ => Except.ok "b64", fun _ => Except.ok "text",
      fun _ => Except.ok ⟨"id1", "t0", "t0"⟩⟩
    "1/2/2026" "u1" ⟨[], none, "title", false, [], 7⟩ rfl

/-- C5: when any step of the pipeline fails on a non-empty fragment
buffer, the run reports an error and leaves no partial note: the notes
collection and the active-note selection are exactly what they were
before. -/
theorem failed_pipeline_leaves_state_unchanged
    (ext : PipelineExt) (today userId : String) (s : PipeState)
    (hne : s.audioChunks ≠ [])
    (hf : pipelineFails ext today userId s = true) :
    (processRecording ext today userId s).state.notes = s.notes ∧
    (processRecording ext today userId s).state.currentNote = s.currentNote ∧
    (processRecording ext today userId s).errorToast = true := by
  simp only [processRecording, if_neg hne]
  cases hE : ext.encode s.audioChunks with
  | error e => simp
  | ok b64 =>
    cases hT : ext.transcribe b64 with
    | error e => simp [hT]
    | ok text =>
      cases hC : ext.create ⟨noteTitleOf s today, text, userId, s.recordingTime⟩ with
      | error e => simp [hT, hC]
      | ok meta =>
          exfalso
          simp only [pipelineFails, hE, hT, hC] at hf
          exact absurd hf (by decide)

/-- Witness for C5: a failing transcription call on a one-fragment
buffer leaves the single existing note and the selection untouched. -/
theorem failed_pipeline_leaves_state_unchanged_witness :
    (processRecording
      ⟨fun _ => Except.ok "b64", fun _ => Except.error (),
        fun _ => Except.ok ⟨"id1", "t0", "t0"⟩⟩
      "1/2/2026" "u1"
      ⟨[⟨"n1", "T", "C", "t0", "t0", "u1", none, none⟩], none, "", false,
        [[0]], 5⟩).state.notes =
      [⟨"n1", "T", "C", "t0", "t0", "u1", none, none⟩] ∧
    (processRecording
      ⟨fun _ => Except.ok "b64", fun _ => Except.error (),
        fun _ => Except.ok ⟨"id1", "t0", "t0"⟩⟩
      "1/2/2026" "u1"
      ⟨[⟨"n1", "T", "C", "t0", "t0", "u1", none, none⟩], none, "", false,
        [[0]], 5⟩).state.currentNote = none ∧
    (processRecording
      ⟨fun _ => Except.ok "b64", fun _ => Except.error (),
        fun _ => Except.ok ⟨"id1", "t0", "t0"⟩⟩
      "1/2/2026" "u1"
      ⟨[⟨"n1", "T", "C", "t0", "t0", "u1", none, none⟩], none, "", false,
        [[0]], 5⟩).errorToast = true :=
  failed_pipeline_leaves_state_unchanged
    ⟨fun _ => Except.ok "b64", fun _ => Except.error (),
      fun _ => Except.ok ⟨"id1", "t0", "t0"⟩⟩
    "1/2/2026" "u1"
    ⟨[⟨"n1", "T", "C", "t0", "t0", "u1", none, none⟩], none, "", false,
      [[0]], 5⟩
    (by decide) rfl

/-- C10: every completed pipeline run on a non-empty fragment buffer —
successful or failed at any step — ends with the fragment buffer empty
and the transcribing flag cleared. -/
theorem pipeline_always_clears_buffer_and_flag
    (ext : PipelineExt) (today userId : String) (s : PipeState)
    (hne : s.audioChunks ≠ []) :
    (processRecording ext today userId s).state.audioChunks = [] ∧
    (processRecording ext today userId s).state.isTranscribing = false := by
  simp only [processRecording, if_neg hne]
  cases hE : ext.encode s.audioChunks with
  | error e => simp
  | ok b64 =>
    cases hT : ext.transcribe b64 with
    | error e => simp [hT]
    | ok text =>
      cases hC : ext.create ⟨noteTitleOf s today, text, userId, s.recordingTime⟩ with
      | error e => simp [hT, hC]
      | ok meta => simp [hT, hC]

/-- Witness for C10: a run that fails at the store-create step still
clears the buffer and the flag. -/
theorem pipeline_always_clears_buffer_and_flag_witness :
    (processRecording
      ⟨fun _ => Except.ok "b64", fun _ => Except.ok "text",
        fun _ => Except.error ()⟩
      "1/2/2026" "u1"
      ⟨[], none, "", true, [[1], [2]], 9⟩).state.audioChunks = [] ∧
    (processRecording
      ⟨fun _ => Except.ok "b64", fun _ => Except.ok "text",
        fun _ => Except.error ()⟩
      "1/2/2026" "u1"
      ⟨[], none, "", true, [[1], [2]], 9⟩).state.isTranscribing = false :=
  pipeline_always_clears_buffer_and_flag
    ⟨fun _ => Except.ok "b64", fun _ => Except.ok "text",
      fun _ => Except.error ()⟩
    "1/2/2026" "u1" ⟨[], none, "", true, [[1], [2]], 9⟩ (by decide)

/-- Descending comparison on the last-update timestamp, the order
requested by `loadNotes` (`orderBy: { updated_at: 'desc' }`). -/
def byUpdatedDesc (a b : Note) : Bool :=
  decide (b.updated_at ≤ a.updated_at)

/-- Modelled from the spec: the Note Store Adapter's `list` operation
(`blink.db.notes.list`, whose client code is not under `src/`) —
"`list(owner)` → notes ordered by last-update descending", scoped to the
notes owned by the requesting user. -/
def storeList (owner : String) (store : List Note) : List Note :=
  (store.filter (fun n => n.user_id == owner)).mergeSort byUpdatedDesc

/-- `loadNotes` (`App.tsx` lines 76-85): fetch the owner's notes ordered
by last update descending and replace the in-memory collection with the
result. -/
def loadNotes (owner : String) (store : List Note) : List Note :=
  storeList owner store

lemma byUpdatedDesc_trans (a b c : Note)
    (h1 : byUpdatedDesc a b = true) (h2 : byUpdatedDesc b c = true) :
    byUpdatedDesc a c = true := by
  simp only [byUpdatedDesc, decide_eq_true_eq] at h1 h2 ⊢
  exact le_trans h2 h1

lemma byUpdatedDesc_total (a b : Note) :
    (byUpdatedDesc a b || byUpdatedDesc b a) = true := by
  simp only [byUpdatedDesc, Bool.or_eq_true, decide_eq_true_eq]
  exact le_total b.updated_at a.updated_at

/-- C6: the list operation returns exactly the requesting owner's notes,
ordered by last-update timestamp descending: membership is equivalent to
being an owner-matching note of the store, the result is a permutation
of the owner-matching notes (same multiplicity), and consecutive results
are in descending last-update order. -/
theorem list_returns_owner_notes_sorted (owner : String) (store : List Note) :
    (∀ n : Note, n ∈ loadNotes owner store ↔ n ∈ store ∧ n.user_id = owner) ∧
    (loadNotes owner store).Perm (store.filter (fun n => n.user_id == owner)) ∧
    List.Pairwise (fun a b : Note => b.updated_at ≤ a.updated_at)
      (loadNotes owner store) := by
  refine ⟨?_, ?_, ?_⟩
  · intro n
    simp [loadNotes, storeList, List.mem_mergeSort, List.mem_filter]
  · exact List.mergeSort_perm _ _
  · have h := List.sorted_mergeSort byUpdatedDesc_trans byUpdatedDesc_total
      (store.filter (fun n => n.user_id == owner))
    exact h.imp (fun hab => by
      simpa only [byUpdatedDesc, decide_eq_true_eq] using hab)

/-- `deleteNote` (`App.tsx` lines 211-223): on store success, filter the
matching identifier out of the in-memory collection and clear the active
selection when its identifier matches; on store failure (the `catch`),
nothing changes. -/
def deleteNote (storeOk : Bool) (noteId : String) (notes : List Note)
    (current : Option Note) : List Note × Option Note :=
  if storeOk then
    (notes.filter (fun n => !(n.id == noteId)),
      match current with
      | some c => if c.id = noteId then none else some c
      | none => none)
  else (notes, current)

lemma filter_ne_id_length (noteId : String) :
    ∀ notes : List Note, (notes.map Note.id).Nodup →
      noteId ∈ notes.map Note.id →
      (notes.filter (fun n => !(n.id == noteId))).length + 1 = notes.length
  | [], _, hmem => absurd hmem (List.not_mem_nil _)
  | n :: ns, hnd, hmem => by
      rw [List.map_cons, List.nodup_cons] at hnd
      obtain ⟨hhead, hnd'⟩ := hnd
      by_cases hid : n.id = noteId
      · have hdrop : (n.id == noteId) = true := by simp [hid]
        have hrest : (ns.filter (fun m => !(m.id == noteId))) = ns := by
          rw [List.filter_eq_self]
          intro m hm
          have : m.id ≠ noteId := fun h => hhead (hid ▸ h ▸ List.mem_map_of_mem Note.id hm)
          simp [this]
        simp [List.filter_cons, hdrop, hrest]
      · have hkeep : (n.id == noteId) = false := by simp [hid]
        have hmem' : noteId ∈ ns.map Note.id := by
          rcases List.mem_cons.mp hmem with h | h
          · exact absurd h.symm hid
          · exact h
        have ih := filter_ne_id_length noteId ns hnd' hmem'
        simp only [List.filter_cons, hkeep, Bool.not_false, if_pos, List.length_cons]
        omega

/-- C7: a successful `delete(id)` keeps the non-matching entries in
their original order, removes exactly one entry when the identifier is
present (under the uniqueness invariant on identifiers) and zero when it
is absent, and clears the active selection exactly when the active
note's identifier is the deleted one. -/
theorem delete_removes_exactly_matching
    (noteId : String) (notes : List Note) (current : Option Note)
    (hnd : (notes.map Note.id).Nodup) :
    ((deleteNote true noteId notes current).1.Sublist notes) ∧
    (∀ n : Note, n ∈ (deleteNote true noteId notes current).1 ↔
      n ∈ notes ∧ n.id ≠ noteId) ∧
    (noteId ∈ notes.map Note.id →
      (deleteNote true noteId notes current).1.length + 1 = notes.length) ∧
    (noteId ∉ notes.map Note.id →
      (deleteNote true noteId notes current).1 = notes) ∧
    (∀ c : Note, current = some c →
      (c.id = noteId → (deleteNote true noteId notes current).2 = none) ∧
      (c.id ≠ noteId → (deleteNote true noteId notes current).2 = some c)) := by
  refine ⟨?_, ?_, ?_, ?_, ?_⟩
  · simp only [deleteNote, if_pos]
    exact List.filter_sublist notes
  · intro n
    simp [deleteNote, List.mem_filter]
  · intro hmem
    simp only [deleteNote, if_pos]
    exact filter_ne_id_length noteId notes hnd hmem
  · intro hmem
    simp only [deleteNote, if_pos]
    rw [List.filter_eq_self]
    intro m hm
    have : m.id ≠ noteId := fun h => hmem (h ▸ List.mem_map_of_mem Note.id hm)
    simp [this]
  · intro c hc
    subst hc
    constructor
    · intro h; simp [deleteNote, h]
    · intro h; simp [deleteNote, h]

/-- Witness for C7 at a concrete collection: deleting "n2" from a
two-note collection with "n2" active removes that one entry and clears
the selection. -/
theorem delete_removes_exactly_matching_witness :
    ((deleteNote true "n2"
      [⟨"n1", "A", "a", "t1", "t1", "u1", none, none⟩,
        ⟨"n2", "B", "b", "t2", "t2", "u1", none, none⟩]
      (some ⟨"n2", "B", "b", "t2", "t2", "u1", none, none⟩)).1.length + 1 = 2) ∧
    ((deleteNote true "n2"
      [⟨"n1", "A", "a", "t1", "t1", "u1", none, none⟩,
        ⟨"n2", "B", "b", "t2", "t2", "u1", none, none⟩]
      (some ⟨"n2", "B", "b", "t2", "t2", "u1", none, none⟩)).2 = none) := by
  have h := delete_removes_exactly_matching "n2"
    [⟨"n1", "A", "a", "t1", "t1", "u1", none, none⟩,
      ⟨"n2", "B", "b", "t2", "t2", "u1", none, none⟩]
    (some ⟨"n2", "B", "b", "t2", "t2", "u1", none, none⟩) (by decide)
  exact ⟨h.2.2.1 (by decide),
    (h.2.2.2.2 ⟨"n2", "B", "b", "t2", "t2", "u1", none, none⟩ rfl).1 rfl⟩

/-- The payload `saveNote` hands to `blink.db.notes.update`
(`App.tsx` lines 195-199): the identifier plus exactly the content,
title and updated timestamp. -/
structure UpdateRequest where
  id : String
  content : String
  title : String
  updated_at : String
deriving Repr, DecidableEq

/-- Observable outcome of one `saveNote` run: the update request issued
to the store (if any) and the resulting in-memory collection. -/
structure SaveResult where
  request : Option UpdateRequest
  notes : List Note
deriving Repr, DecidableEq

/-- `saveNote` (`App.tsx` lines 191-209): no active note — immediate
return; otherwise issue a store update of the active note's identifier
with its content, title and a fresh updated timestamp; on success
replace the identifier-matching entries of the collection with the
store's result; on failure (the `catch`) leave the collection
unchanged. -/
def saveNote (updateResult : Except Unit Note) (now : String)
    (notes : List Note) (current : Option Note) : SaveResult :=
  match current with
  | none => { request := none, notes := notes }
  | some c =>
    match updateResult with
    | Except.error _ =>
        { request := some ⟨c.id, c.content, c.title, now⟩, notes := notes }
    | Except.ok u =>
        { request := some ⟨c.id, c.content, c.title, now⟩,
          notes := notes.map (fun n => if n.id = u.id then u else n) }

/-- A client-generated temporary identifier, as produced by
`createNewNote` (`` `temp-${Date.now()}` ``). -/
def isTempId (id : String) : Bool :=
  id.take 5 == "temp-"

/-- `createNewNote` (`App.tsx` lines 225-235): a fresh in-memory draft
with a temporary client-generated identifier. -/
def createNewNote (nowMs : Nat) (nowIso : String) (userId : String) : Note :=
  { id := "temp-" ++ toString nowMs, title := "New Note", content := "",
    created_at := nowIso, updated_at := nowIso, user_id := userId }

/-- C8 counterexample: with the draft produced by `createNewNote` as the
active note, `saveNote` does issue a store update carrying the draft's
temporary identifier — so the temporary identifier is sent to the
external store, contrary to the claim. -/
theorem draft_id_sent_to_store_counterexample :
    isTempId (createNewNote 1700000000000 "2023-11-14T22:13:20.000Z" "u1").id
      = true ∧
    (saveNote (Except.error ()) "2023-11-14T22:15:00.000Z" []
      (some (createNewNote 1700000000000 "2023-11-14T22:13:20.000Z" "u1"))).request
      = some ⟨"temp-1700000000000", "", "New Note", "2023-11-14T22:15:00.000Z"⟩ := by
  constructor
  · decide
  · rfl

/-- C8 (amended): `saveNote` with an active note always issues a store
update carrying that note's identifier — in particular, save invoked
while the active note is a draft sends the draft's temporary identifier
to the external store. -/
theorem save_sends_active_note_id (upd : Except Unit Note) (now : String)
    (notes : List Note) (c : Note) :
    (saveNote upd now notes (some c)).request =
      some ⟨c.id, c.content, c.title, now⟩ := by
  cases upd <;> rfl

/-- C9: a successful save commits exactly the active note's title,
content and a fresh updated timestamp to the store, and replaces
exactly the entries whose identifier matches the store's returned note
(the requested identifier) with that result, leaving every other entry
unchanged at its position; a failed store update leaves the in-memory
collection unchanged. -/
theorem save_commits_fields_and_replaces_entry
    (now : String) (notes : List Note) (c u : Note) (hu : u.id = c.id) :
    ((saveNote (Except.ok u) now notes (some c)).request =
      some ⟨c.id, c.content, c.title, now⟩) ∧
    ((saveNote (Except.ok u) now notes (some c)).notes.length = notes.length) ∧
    (∀ (i : Nat) (n : Note), notes[i]? = some n →
      (n.id ≠ c.id →
        (saveNote (Except.ok u) now notes (some c)).notes[i]? = some n) ∧
      (n.id = c.id →
        (saveNote (Except.ok u) now notes (some c)).notes[i]? = some u)) ∧
    ((saveNote (Except.error ()) now notes (some c)).notes = notes) := by
  refine ⟨rfl, ?_, ?_, rfl⟩
  · simp [saveNote]
  · intro i n hn
    constructor
    · intro hne
      simp only [saveNote, List.getElem?_map, hn, Option.map_some']
      rw [if_neg (fun h => hne (h.trans hu))]
    · intro heq
      simp only [saveNote, List.getElem?_map, hn, Option.map_some']
      rw [if_pos (heq.trans hu.symm)]

/-- Witness for C9 at a concrete collection: saving the active note
"n2" replaces its entry with the store result and leaves "n1" in place;
a failing update leaves the collection as it was. -/
theorem save_commits_fields_and_replaces_entry_witness :
    ((saveNote
        (Except.ok ⟨"n2", "B2", "b2", "t2", "t9", "u1", none, none⟩) "t9"
        [⟨"n1", "A", "a", "t1", "t1", "u1", none, none⟩,
          ⟨"n2", "B", "b", "t2", "t2", "u1", none, none⟩]
        (some ⟨"n2", "B", "b", "t2", "t2", "u1", none, none⟩)).notes[0]? =
      some ⟨"n1", "A", "a", "t1", "t1", "u1", none, none⟩) ∧
    ((saveNote
        (Except.ok ⟨"n2", "B2", "b2", "t2", "t9", "u1", none, none⟩) "t9"
        [⟨"n1", "A", "a", "t1", "t1", "u1", none, none⟩,
          ⟨"n2", "B", "b", "t2", "t2", "u1", none, none⟩]
        (some ⟨"n2", "B", "b", "t2", "t2", "u1", none, none⟩)).notes[1]? =
      some ⟨"n2", "B2", "b2", "t2", "t9", "u1", none, none⟩) ∧
    ((saveNote (Except.error ()) "t9"
        [⟨"n1", "A", "a", "t1", "t1", "u1", none, none⟩,
          ⟨"n2", "B", "b", "t2", "t2", "u1", none, none⟩]
        (some ⟨"n2", "B", "b", "t2", "t2", "u1", none, none⟩)).notes =
      [⟨"n1", "A", "a", "t1", "t1", "u1", none, none⟩,
        ⟨"n2", "B", "b", "t2", "t2", "u1", none, none⟩]) := by
  have h := save_commits_fields_and_replaces_entry "t9"
    [⟨"n1", "A", "a", "t1", "t1", "u1", none, none⟩,
      ⟨"n2", "B", "b", "t2", "t2", "u1", none, none⟩]
    ⟨"n2", "B", "b", "t2", "t2", "u1", none, none⟩
    ⟨"n2", "B2", "b2", "t2", "t9", "u1", none, none⟩ rfl
  exact ⟨(h.2.2.1 0 ⟨"n1", "A", "a", "t1", "t1", "u1", none, none⟩ rfl).1
      (by decide),
    (h.2.2.1 1 ⟨"n2", "B", "b", "t2", "t2", "u1", none, none⟩ rfl).2 rfl,
    h.2.2.2⟩

end VoiceNotes
